import Mathlib

/-!
Verification of `feeds/torrentpier.py`, a polling feed reader: it fetches a
tracker listing page, extracts (name, link) entries from its markup, and
emits only entries whose link has not been seen before.

Shallow embedding conventions:
* The lxml parse of the fetched html is abstracted to its result: `Doc` is
  `none` when `fromstring` raises `ParserError`/`XMLSyntaxError`, and
  `some rows` when it succeeds, where each row carries the two strings that
  the xpath `string(...)` queries `NAME_PATH` and `LINK_PATH` return for one
  `CONTENT_PATH` match (the `string()` form always yields a string, possibly
  empty).
* `urllib.parse.urljoin` and the configured tracker base url
  (`utils.config.tracker_url`) are stdlib/config collaborators; they enter
  the model as an explicit join function and base string.
* `utils.config.timeout_interval` and `utils.config.cache_limit` enter as
  explicit numeric arguments.
* Async generators become finite lists; `asyncio.sleep` durations are
  modelled by functions computing the slept amount.
-/

namespace TorrentPier

/-- One extracted item: display name and (joined) download link. -/
structure Entry where
  name : String
  link : String
  deriving DecidableEq

/-- The two xpath `string(...)` results for one content row:
`(NAME_PATH result, LINK_PATH result)`. -/
abbrev Row := String × String

/-- Result of parsing one fetched body: `none` for a parse exception,
`some rows` for a successful parse with the listed content rows. -/
abbrev Doc := Option (List Row)

/-- Python `str.isspace` members relevant to `str.strip()` for ASCII input:
space, tab, newline, carriage return, vertical tab, form feed. -/
def pyIsSpace (c : Char) : Bool :=
  c == ' ' || c == '\t' || c == '\n' || c == '\r' ||
    c == Char.ofNat 11 || c == Char.ofNat 12

/-- Python `str.strip()` with no argument: drop leading and trailing
whitespace. -/
def pyStrip (s : String) : String :=
  String.mk (((s.data.dropWhile pyIsSpace).reverse.dropWhile pyIsSpace).reverse)

/-- The loop body of `extractor` (torrentpier.py lines 67-70) for one row:
`if name and link: yield name.strip(), urljoin(tracker_url(), link.strip())`.
Python truthiness of a string is non-emptiness, tested on the unstripped
values. -/
def rowEntry (join : String → String → String) (base : String) (r : Row) :
    Option Entry :=
  if !r.1.isEmpty && !r.2.isEmpty then
    some ⟨pyStrip r.1, join base (pyStrip r.2)⟩
  else none

/-- The entries yielded by `extractor` (torrentpier.py lines 53-70): a parse
failure yields nothing; otherwise the content rows are traversed in
`reversed` order and each row passes through `rowEntry`. -/
def extractor (join : String → String → String) (base : String) :
    Doc → List Entry
  | none => []
  | some rows => rows.reverse.filterMap (rowEntry join base)

/-- Module constant `COOLDOWN = timeout_interval() * 10`
(torrentpier.py line 37), as a function of the configured interval. -/
def COOLDOWN (interval : Nat) : Nat := interval * 10

/-- Time slept inside `extractor` for one document: `await asleep(COOLDOWN)`
exactly when the parse succeeded but matched zero content rows
(torrentpier.py lines 62-65). -/
def extractorSleep (interval : Nat) : Doc → Nat
  | none => 0
  | some rows => if rows.isEmpty then COOLDOWN interval else 0

/-- The exception classes caught by `tracker` (torrentpier.py lines 39-45):
`ClientOSError`, `ClientPayloadError`, `InvalidURL`, `OSError`,
`asyncio.TimeoutError`. -/
inductive ErrKind where
  | clientOSError
  | clientPayloadError
  | invalidURL
  | osError
  | timeoutError
  deriving DecidableEq

/-- Which caught classes satisfy `isinstance(e, OSError)`:
`aiohttp.ClientOSError` derives from `OSError`; `ClientPayloadError` and
`InvalidURL` do not; the source imports `asyncio.TimeoutError` (the asyncio
class, not the builtin), which is not an `OSError` subclass. -/
def ErrKind.isOSError : ErrKind → Bool
  | .clientOSError => true
  | .osError => true
  | _ => false

/-- One raised exception from the GET: its class, its `errno` attribute
(`none` when unset, as Python `None`), and its `str(e)` rendering. -/
structure FetchError where
  kind : ErrKind
  errno : Option Int
  str : String
  deriving DecidableEq

/-- An HTTP response: its status, and its body decode outcome once read —
`none` when `resp.text()` raises `TimeoutError`, otherwise the parse result
of the decoded html. -/
structure Response where
  status : Nat
  body : Option Doc
  deriving DecidableEq

/-- Outcome of `session.get(tracker_url(), allow_redirects=False)`: either a
raised exception or a response. -/
inductive FetchOutcome where
  | raised (e : FetchError)
  | ok (r : Response)
  deriving DecidableEq

/-- What one `tracker` cycle produces: the entries it yields and the lines
written to stderr via `aprint(..., use_stderr=True)`. -/
structure CycleResult where
  entries : List Entry
  errOutput : List String
  deriving DecidableEq

/-- `errno.ECONNRESET` on Linux. -/
def ECONNRESET : Int := 104

/-- One `tracker` cycle (torrentpier.py lines 73-91): a caught exception
yields nothing, reporting `Connection error: ...` to stderr exactly when it
is an `OSError` whose `errno` differs from `ECONNRESET`; a non-200 status
yields nothing; a body decode timeout yields nothing; otherwise the
extractor's entries are forwarded unchanged. -/
def tracker (join : String → String → String) (base : String) :
    FetchOutcome → CycleResult
  | .raised e =>
      if e.kind.isOSError && !(e.errno == some ECONNRESET) then
        ⟨[], ["Connection error: " ++ e.str]⟩
      else ⟨[], []⟩
  | .ok r =>
      if r.status ≠ 200 then ⟨[], []⟩
      else
        match r.body with
        | none => ⟨[], []⟩
        | some doc => ⟨extractor join base doc, []⟩

/-- Time slept inside one `tracker` cycle: only the extractor's cooldown
path sleeps, and the extractor runs only on a 200 response with a decoded
body. -/
def trackerSleep (interval : Nat) : FetchOutcome → Nat
  | .raised _ => 0
  | .ok r =>
      if r.status ≠ 200 then 0
      else
        match r.body with
        | none => 0
        | some doc => extractorSleep interval doc

/-- Delay between finishing one fetch's processing and issuing the next
fetch in the running loop of `http_feed` (torrentpier.py lines 112-117):
whatever the cycle slept internally, plus the unconditional
`await asleep(timeout_interval())` at the bottom of the loop. -/
def delayBeforeNextFetch (interval : Nat) (o : FetchOutcome) : Nat :=
  trackerSleep interval o + interval

/-- Modelled from the spec: the class `utils.cache.LRU` is imported by the
source but its file is not part of `src/`. Spec section 4.2 gives its
contract: a fixed-capacity, ordered set of previously-seen keys with strict
least-recently-used eviction; membership tests of an existing key refresh
its recency; insertion evicts the least-recently-used key when over
capacity; a bulk seed populates it at construction. `keys` is held
least-recently-used first, most-recently-used last. -/
structure LRU where
  cap : Nat
  keys : List String
  deriving DecidableEq

/-- Modelled from the spec: the membership test (`in` / `not in`). An
existing key is refreshed to most-recent; per the section 4.2 contract
`contains(key) → bool` the test inserts nothing (insertion is the separate
`put`). Returns the updated cache and whether the key was present. -/
def LRU.containsCheck (c : LRU) (k : String) : LRU × Bool :=
  if c.keys.contains k then (⟨c.cap, c.keys.erase k ++ [k]⟩, true)
  else (c, false)

/-- Modelled from the spec: `put(key)`, idempotent; an existing key is
refreshed, a new key is appended as most-recent and the least-recently-used
keys beyond capacity are evicted from the front. -/
def LRU.put (c : LRU) (k : String) : LRU :=
  if c.keys.contains k then ⟨c.cap, c.keys.erase k ++ [k]⟩
  else ⟨c.cap, (c.keys ++ [k]).drop ((c.keys ++ [k]).length - c.cap)⟩

/-- Modelled from the spec: the constructor call
`LRU(cache_limit(), [(url, None) async for _, url in tracker(session)])`
bulk-seeds the cache with the links of the first sweep, capacity-respecting,
in insertion order. -/
def LRU.seed (cap : Nat) (ls : List String) : LRU :=
  ls.foldl LRU.put ⟨cap, []⟩

/-- The stdout line for one emitted entry: `aprint(f'...')` writes the
name, a NUL byte, the url, and the newline that `aprint` appends
(torrentpier.py line 115). -/
def emitLine (e : Entry) : String :=
  e.name ++ "\x00" ++ e.link ++ "\n"

/-- One RUNNING cycle of `http_feed` (torrentpier.py lines 113-115): for
each yielded entry, `if url not in seen_urls: await aprint(...)`. The
membership test goes through the cache (refreshing recency on a hit); an
unseen entry is emitted. Returns the cache after the cycle and the stdout
lines in emission order. -/
def runCycle (c : LRU) : List Entry → LRU × List String
  | [] => (c, [])
  | e :: es =>
      let step := c.containsCheck e.link
      let rest := runCycle step.1 es
      (rest.1, (if step.2 then [] else [emitLine e]) ++ rest.2)

/-- The RUNNING loop of `http_feed` over a finite prefix of cycles, each
given by the entry sequence its `tracker` call yields: cycles run in order,
threading the cache, concatenating stdout output. -/
def runLoop (c : LRU) : List (List Entry) → LRU × List String
  | [] => (c, [])
  | es :: rest =>
      let cyc := runCycle c es
      let more := runLoop cyc.1 rest
      (more.1, cyc.2 ++ more.2)

/-- The `http_feed` pipeline (torrentpier.py lines 94-117), with each
`tracker` call abstracted to the entry sequence it yields: the first sweep
seeds `seen_urls` with its links; `if not seen_urls` the process raises
`SystemExit('Expired credentials')`; otherwise the running loop produces the
stdout lines of the given cycles. -/
def http_feed (cap : Nat) (first : List Entry)
    (cycles : List (List Entry)) : Except String (List String) :=
  if (LRU.seed cap (first.map Entry.link)).keys.isEmpty then
    Except.error "Expired credentials"
  else Except.ok (runLoop (LRU.seed cap (first.map Entry.link)) cycles).2

/-! Helper lemmas. -/

theorem filterMap_rowEntry (join : String → String → String) (base : String)
    (rows : List Row) :
    rows.filterMap (rowEntry join base) =
      (rows.filter fun r => !r.1.isEmpty && !r.2.isEmpty).map
        fun r => Entry.mk (pyStrip r.1) (join base (pyStrip r.2)) := by
  induction rows with
  | nil => rfl
  | cons r rs ih =>
      rw [List.filterMap_cons, List.filter_cons]
      by_cases h : (!r.1.isEmpty && !r.2.isEmpty) = true
      · have hr : rowEntry join base r
            = some ⟨pyStrip r.1, join base (pyStrip r.2)⟩ := by
          unfold rowEntry
          rw [if_pos h]
        rw [hr, if_pos h, List.map_cons, ih]
      · have hr : rowEntry join base r = none := by
          unfold rowEntry
          rw [if_neg h]
        rw [hr, if_neg h, ih]

/-! Theorems for the claims. -/

/-- C6: a content row missing a display name or a download link is silently
excluded from the extractor's yield; a row with both present is included,
with its name stripped and its link stripped then joined against the
tracker base url (an absolute url for any join implementing `urljoin`). -/
theorem extractor_skip_policy (join : String → String → String)
    (base : String) (rows : List Row) :
    extractor join base (some rows) =
      ((rows.filter fun r => !r.1.isEmpty && !r.2.isEmpty).map
        fun r => Entry.mk (pyStrip r.1) (join base (pyStrip r.2))).reverse := by
  show rows.reverse.filterMap (rowEntry join base) = _
  rw [List.filterMap_reverse, filterMap_rowEntry]

/-- C7: the extractor yields the qualifying rows in reverse document order:
its output is the reverse of the in-document-order qualifying sequence, so
the last qualifying row of the document is yielded first and the first
qualifying row is yielded last. -/
theorem extractor_reverse_order (join : String → String → String)
    (base : String) (rows : List Row) :
    extractor join base (some rows)
        = (rows.filterMap (rowEntry join base)).reverse ∧
      (extractor join base (some rows)).head?
        = (rows.filterMap (rowEntry join base)).getLast? ∧
      (extractor join base (some rows)).getLast?
        = (rows.filterMap (rowEntry join base)).head? := by
  refine ⟨List.filterMap_reverse _ _, ?_, ?_⟩
  · show (rows.reverse.filterMap (rowEntry join base)).head? = _
    rw [List.filterMap_reverse, List.head?_reverse]
  · show (rows.reverse.filterMap (rowEntry join base)).getLast? = _
    rw [List.filterMap_reverse, List.getLast?_reverse]

/-- C10: the name and link of a yielded entry are stripped of surrounding
whitespace (the link before joining), but the presence check is on the
unstripped values: any row whose raw fields are non-empty — even
whitespace-only — yields an entry, whose stripped name may be empty. -/
theorem extractor_strips_after_presence_check
    (join : String → String → String) (base : String) (n l : String)
    (hn : n ≠ "") (hl : l ≠ "") :
    extractor join base (some [(n, l)])
      = [⟨pyStrip n, join base (pyStrip l)⟩] := by
  have hn' : n.isEmpty = false := by
    cases hs : n.isEmpty
    · rfl
    · exact absurd ((String.isEmpty_iff n).mp hs) hn
  have hl' : l.isEmpty = false := by
    cases hs : l.isEmpty
    · rfl
    · exact absurd ((String.isEmpty_iff l).mp hs) hl
  simp [extractor, rowEntry, hn', hl']

/-- Witness for C10 at a whitespace-only name: the row is not skipped and
yields an entry whose stripped name is the empty string. -/
theorem extractor_strips_witness :
    (" " ≠ "") ∧ (" x " ≠ "") ∧
      extractor (fun b r => b ++ r) "http://t/" (some [(" ", " x ")])
        = [⟨"", "http://t/x"⟩] :=
  ⟨by decide, by decide,
    (extractor_strips_after_presence_check (fun b r => b ++ r) "http://t/"
      " " " x " (by decide) (by decide)).trans (by decide)⟩

/-- C4, counterexample to the claim as stated: at interval 1, a successful
fetch parsing to zero content rows is followed by a delay of 11, not the
cooldown 10 — the extractor sleeps `COOLDOWN` and the loop still sleeps the
normal interval afterwards. -/
theorem cooldown_delay_counterexample :
    ¬ delayBeforeNextFetch 1 (FetchOutcome.ok ⟨200, some (some [])⟩)
        = COOLDOWN 1 := by
  decide

/-- C4, amended: a successful fetch whose parse finds the page structure
but zero content rows delays the next fetch by the cooldown (10 times the
normal interval) plus the normal inter-cycle interval, 11 intervals in
total. -/
theorem cooldown_delay_plus_interval (interval : Nat) :
    delayBeforeNextFetch interval (FetchOutcome.ok ⟨200, some (some [])⟩)
        = COOLDOWN interval + interval ∧
      COOLDOWN interval = interval * 10 :=
  ⟨rfl, rfl⟩

theorem contains_eq_of_perm {l₁ l₂ : List String} (h : l₁.Perm l₂)
    (a : String) : l₁.contains a = l₂.contains a := by
  cases hc : l₂.contains a
  · cases hc' : l₁.contains a
    · rfl
    · have hm : a ∈ l₂ := h.mem_iff.mp (List.elem_iff.mp hc')
      have h2 : l₂.contains a = true := List.elem_eq_true_of_mem hm
      rw [h2] at hc
      exact hc
  · exact List.elem_iff.mpr (h.mem_iff.mpr (List.elem_iff.mp hc))

theorem LRU.containsCheck_fst_keys_perm (c : LRU) (k : String) :
    ((c.containsCheck k).1).keys.Perm c.keys := by
  unfold LRU.containsCheck
  split
  · rename_i h
    have hm : k ∈ c.keys := List.elem_iff.mp h
    exact List.perm_append_comm.trans (List.perm_cons_erase hm).symm
  · exact List.Perm.refl _

theorem LRU.containsCheck_snd (c : LRU) (k : String) :
    (c.containsCheck k).2 = c.keys.contains k := by
  unfold LRU.containsCheck
  split <;> rename_i h <;> simp_all

theorem runCycle_fst_keys_perm (c : LRU) (es : List Entry) :
    ((runCycle c es).1).keys.Perm c.keys := by
  induction es generalizing c with
  | nil => exact List.Perm.refl _
  | cons e es ih =>
      have h1 := ih (c.containsCheck e.link).1
      have h2 := LRU.containsCheck_fst_keys_perm c e.link
      simpa [runCycle] using h1.trans h2

theorem filter_unseen_congr {l₁ l₂ : List String} (h : l₁.Perm l₂)
    (es : List Entry) :
    (es.filter fun e => !(l₁.contains e.link))
      = es.filter fun e => !(l₂.contains e.link) :=
  List.filter_congr fun x _ => by rw [contains_eq_of_perm h]

theorem runCycle_snd_eq (c : LRU) (es : List Entry) :
    (runCycle c es).2
      = (es.filter fun e => !(c.keys.contains e.link)).map emitLine := by
  induction es generalizing c with
  | nil => rfl
  | cons e es ih =>
      have hperm := LRU.containsCheck_fst_keys_perm c e.link
      have hr : (runCycle (c.containsCheck e.link).1 es).2
          = (es.filter fun e' => !(c.keys.contains e'.link)).map emitLine := by
        rw [ih, filter_unseen_congr hperm]
      rw [List.filter_cons]
      cases h : c.keys.contains e.link
      · simp only [runCycle, LRU.containsCheck_snd, h, hr]
        simp
      · simp only [runCycle, LRU.containsCheck_snd, h, hr]
        simp

/-- C9: the RUNNING loop never inserts into or removes keys from the dedup
cache — after any sequence of cycles the key multiset is a permutation of
the seeded one — and consequently every cycle's emissions are determined by
the seed-time key set alone: each cycle emits exactly its entries whose link
is not among the initial keys. -/
theorem running_loop_cache_frame (c : LRU) (cycles : List (List Entry)) :
    ((runLoop c cycles).1).keys.Perm c.keys ∧
      (runLoop c cycles).2
        = (cycles.map fun es =>
            (es.filter fun e => !(c.keys.contains e.link)).map emitLine).flatten := by
  induction cycles generalizing c with
  | nil => exact ⟨List.Perm.refl _, rfl⟩
  | cons es rest ih =>
      obtain ⟨ihp, iho⟩ := ih (runCycle c es).1
      have hcp := runCycle_fst_keys_perm c es
      constructor
      · simpa [runLoop] using ihp.trans hcp
      · have hmap :
            (rest.map fun es' =>
              (es'.filter fun e =>
                !(((runCycle c es).1).keys.contains e.link)).map emitLine)
            = rest.map fun es' =>
              (es'.filter fun e => !(c.keys.contains e.link)).map emitLine :=
          List.map_eq_map_iff.mpr fun x _ => by rw [filter_unseen_congr hcp]
        simp only [runLoop, List.map_cons, List.flatten_cons]
        rw [iho, hmap, runCycle_snd_eq]

/-- C8: every line a RUNNING cycle writes to stdout is exactly the entry's
name, a NUL byte, its absolute url, and a terminating newline, for some
entry the cycle yielded. -/
theorem emitted_line_format (c : LRU) (es : List Entry) (line : String)
    (h : line ∈ (runCycle c es).2) :
    ∃ e, e ∈ es ∧ line = e.name ++ "\x00" ++ e.link ++ "\n" := by
  rw [runCycle_snd_eq] at h
  obtain ⟨e, he, rfl⟩ := List.mem_map.mp h
  exact ⟨e, (List.mem_filter.mp he).1, rfl⟩

/-- Witness for C8 at a concrete cycle: the single emitted line has the
NUL-delimited, newline-terminated shape. -/
theorem emitted_line_format_witness :
    ("B\x00u2\n" ∈ (runCycle (LRU.seed 5 ["u1"]) [⟨"B", "u2"⟩]).2) ∧
      ∃ e, e ∈ ([⟨"B", "u2"⟩] : List Entry) ∧
        "B\x00u2\n" = e.name ++ "\x00" ++ e.link ++ "\n" :=
  ⟨by decide,
    emitted_line_format (LRU.seed 5 ["u1"]) [⟨"B", "u2"⟩] "B\x00u2\n"
      (by decide)⟩

theorem LRU.put_cap (c : LRU) (k : String) : (c.put k).cap = c.cap := by
  unfold LRU.put
  split <;> rfl

theorem LRU.put_keys_ne_nil (c : LRU) (k : String) (h : 1 ≤ c.cap) :
    (c.put k).keys ≠ [] := by
  unfold LRU.put
  split
  · simp
  · intro hc
    simp only at hc
    have hlen := List.drop_eq_nil_iff.mp hc
    simp only [List.length_append, List.length_cons, List.length_nil] at hlen
    omega

theorem LRU.foldl_put_keys_ne_nil (ls : List String) (c : LRU)
    (h : 1 ≤ c.cap) (hne : c.keys ≠ []) :
    (ls.foldl LRU.put c).keys ≠ [] := by
  induction ls generalizing c with
  | nil => exact hne
  | cons l ls ih =>
      exact ih (c.put l) (by rw [LRU.put_cap]; exact h)
        (LRU.put_keys_ne_nil c l h)

theorem LRU.seed_keys_ne_nil (cap : Nat) (ls : List String) (h : 1 ≤ cap)
    (hne : ls ≠ []) : (LRU.seed cap ls).keys ≠ [] := by
  cases ls with
  | nil => exact absurd rfl hne
  | cons l ls =>
      exact LRU.foldl_put_keys_ne_nil ls (LRU.put ⟨cap, []⟩ l)
        (by rw [LRU.put_cap]; exact h)
        (LRU.put_keys_ne_nil ⟨cap, []⟩ l h)

theorem LRU.put_keys_length_le (c : LRU) (k : String) :
    (c.put k).keys.length ≤ c.keys.length + 1 := by
  unfold LRU.put
  split
  · rename_i h
    have hm : k ∈ c.keys := List.elem_iff.mp h
    simp [List.length_erase_of_mem hm]
  · simp

theorem LRU.put_mem_keys (c : LRU) (k : String)
    (h : c.keys.length + 1 ≤ c.cap) (x : String)
    (hx : x ∈ c.keys ∨ x = k) : x ∈ (c.put k).keys := by
  unfold LRU.put
  split
  · rcases hx with hx | rfl
    · by_cases hxk : x = k
      · subst hxk
        simp
      · exact List.mem_append_left _ ((List.mem_erase_of_ne hxk).mpr hx)
    · simp
  · have hdrop : (c.keys ++ [k]).length - c.cap = 0 := by
      simp only [List.length_append, List.length_cons, List.length_nil]
      omega
    simp only [hdrop, List.drop_zero]
    rcases hx with hx | rfl
    · exact List.mem_append_left _ hx
    · simp

theorem LRU.foldl_put_mem (ls : List String) (c : LRU)
    (h : c.keys.length + ls.length ≤ c.cap) (x : String)
    (hx : x ∈ c.keys ∨ x ∈ ls) : x ∈ (ls.foldl LRU.put c).keys := by
  induction ls generalizing c with
  | nil =>
      rcases hx with hx | hx
      · exact hx
      · cases hx
  | cons l ls ih =>
      simp only [List.length_cons] at h
      have hput : c.keys.length + 1 ≤ c.cap := by omega
      have hlen : (c.put l).keys.length + ls.length ≤ (c.put l).cap := by
        rw [LRU.put_cap]
        have := LRU.put_keys_length_le c l
        omega
      apply ih (c.put l) hlen
      rcases hx with hx | hx
      · exact Or.inl (LRU.put_mem_keys c l hput x (Or.inl hx))
      · rcases List.mem_cons.mp hx with hxl | hx
        · exact Or.inl (LRU.put_mem_keys c l hput x (Or.inr hxl))
        · exact Or.inr hx

theorem LRU.seed_mem (cap : Nat) (ls : List String) (h : ls.length ≤ cap)
    (x : String) (hx : x ∈ ls) : x ∈ (LRU.seed cap ls).keys :=
  LRU.foldl_put_mem ls ⟨cap, []⟩ (by simpa using h) x (Or.inr hx)

/-- C2: a seeding sweep yielding zero links makes the process terminate
with the `Expired credentials` failure before the running loop; a sweep
yielding at least one link (with the spec-required capacity of at least 1)
does not abort and reaches the running loop. -/
theorem http_feed_abort_on_empty_seed (cap : Nat) (first : List Entry)
    (cycles : List (List Entry)) :
    (first = [] →
        http_feed cap first cycles = Except.error "Expired credentials") ∧
      (1 ≤ cap → first ≠ [] →
        ∃ out, http_feed cap first cycles = Except.ok out) := by
  constructor
  · intro h
    subst h
    rfl
  · intro hcap hne
    have hkeys : (LRU.seed cap (first.map Entry.link)).keys ≠ [] :=
      LRU.seed_keys_ne_nil cap _ hcap (by simpa using hne)
    have hempty : (LRU.seed cap (first.map Entry.link)).keys.isEmpty
        = false := by
      cases hk : (LRU.seed cap (first.map Entry.link)).keys
      · exact absurd hk hkeys
      · rfl
    refine ⟨(runLoop (LRU.seed cap (first.map Entry.link)) cycles).2, ?_⟩
    unfold http_feed
    rw [hempty]
    rfl

/-- Witness for C2: with capacity 3, an empty first sweep aborts with the
`Expired credentials` failure, and a one-entry first sweep enters the loop. -/
theorem http_feed_abort_witness :
    http_feed 3 [] [] = Except.error "Expired credentials" ∧
      (1 ≤ 3 ∧ ([(⟨"A", "u"⟩ : Entry)] ≠ []) ∧
        ∃ out, http_feed 3 [⟨"A", "u"⟩] [] = Except.ok out) :=
  ⟨(http_feed_abort_on_empty_seed 3 [] []).1 rfl,
    by decide, by decide,
    (http_feed_abort_on_empty_seed 3 [⟨"A", "u"⟩] []).2 (by decide) (by decide)⟩

/-- C3: the seeding sweep emits no output line — a run that aborts or stops
before any RUNNING cycle has written nothing to stdout — and, when the
first sweep fits the capacity, every link it yielded is in the dedup cache
immediately after seeding. -/
theorem http_feed_seeding_silent (cap : Nat) (first : List Entry)
    (h : first.length ≤ cap) :
    (http_feed cap first [] = Except.error "Expired credentials" ∨
        http_feed cap first [] = Except.ok []) ∧
      ∀ e ∈ first, e.link ∈ (LRU.seed cap (first.map Entry.link)).keys := by
  constructor
  · unfold http_feed
    by_cases hk : (LRU.seed cap (first.map Entry.link)).keys.isEmpty = true
    · rw [hk]
      exact Or.inl rfl
    · rw [Bool.of_not_eq_true hk]
      exact Or.inr rfl
  · intro e he
    exact LRU.seed_mem cap _ (by simpa using h) e.link
      (List.mem_map_of_mem Entry.link he)

/-- Witness for C3 at a three-entry first sweep and capacity 10. -/
theorem http_feed_seeding_silent_witness :
    (([⟨"A", "a"⟩, ⟨"B", "b"⟩, ⟨"C", "c"⟩] : List Entry).length ≤ 10) ∧
      ((http_feed 10 [⟨"A", "a"⟩, ⟨"B", "b"⟩, ⟨"C", "c"⟩] []
          = Except.error "Expired credentials" ∨
        http_feed 10 [⟨"A", "a"⟩, ⟨"B", "b"⟩, ⟨"C", "c"⟩] []
          = Except.ok []) ∧
       ∀ e ∈ ([⟨"A", "a"⟩, ⟨"B", "b"⟩, ⟨"C", "c"⟩] : List Entry),
         e.link ∈ (LRU.seed 10
           (([⟨"A", "a"⟩, ⟨"B", "b"⟩, ⟨"C", "c"⟩] : List Entry).map
             Entry.link)).keys) :=
  ⟨by decide, http_feed_seeding_silent 10 _ (by decide)⟩

/-- C1, the code at the claim's failing input: a cache seeded with one
link, and a RUNNING cycle yielding a single new entry B. The cycle emits B
but does not insert B's link — the key list is unchanged — so running the
identical cycle again emits B a second time, contradicting the claimed
idempotence for entries first emitted after seeding (the loop body only
tests `url not in seen_urls` and never writes to the cache). -/
theorem running_loop_reemits_unseeded :
    (runCycle (LRU.seed 10 ["http://t/1"]) [⟨"B", "http://t/2"⟩]).2
        = ["B\x00http://t/2\n"] ∧
      ((runCycle (LRU.seed 10 ["http://t/1"]) [⟨"B", "http://t/2"⟩]).1).keys
        = ["http://t/1"] ∧
      (runLoop (LRU.seed 10 ["http://t/1"])
          [[⟨"B", "http://t/2"⟩], [⟨"B", "http://t/2"⟩]]).2
        = ["B\x00http://t/2\n", "B\x00http://t/2\n"] := by
  decide

/-- C5: every failure mode of one fetch cycle yields an empty entry
sequence without an exception escaping: any caught request-level exception,
any non-200 response (redirects, being unfollowed, arrive as 3xx statuses),
and a body decode timeout. Among all of these, a line is written to the
error channel if and only if the exception is an `OSError` whose `errno`
differs from `ECONNRESET`; in particular a connection reset and an asyncio
request timeout are suppressed silently. -/
theorem tracker_failure_handling (join : String → String → String)
    (base : String) :
    (∀ e : FetchError,
        (tracker join base (.raised e)).entries = [] ∧
          ((tracker join base (.raised e)).errOutput ≠ [] ↔
            e.kind.isOSError = true ∧ e.errno ≠ some ECONNRESET)) ∧
      (∀ (st : Nat) (b : Option Doc), st ≠ 200 →
        tracker join base (.ok ⟨st, b⟩) = ⟨[], []⟩) ∧
      tracker join base (.ok ⟨200, none⟩) = ⟨[], []⟩ ∧
      (∀ s : String,
        (tracker join base
          (.raised ⟨.osError, some ECONNRESET, s⟩)).errOutput = [] ∧
        (tracker join base
          (.raised ⟨.timeoutError, none, s⟩)).errOutput = []) := by
  refine ⟨?_, ?_, rfl, ?_⟩
  · intro e
    constructor
    · show (if (e.kind.isOSError && !(e.errno == some ECONNRESET)) = true
          then (⟨[], ["Connection error: " ++ e.str]⟩ : CycleResult)
          else ⟨[], []⟩).entries = []
      split <;> rfl
    · show (if (e.kind.isOSError && !(e.errno == some ECONNRESET)) = true
          then (⟨[], ["Connection error: " ++ e.str]⟩ : CycleResult)
          else ⟨[], []⟩).errOutput ≠ [] ↔ _
      by_cases h : (e.kind.isOSError && !(e.errno == some ECONNRESET)) = true
      · rw [if_pos h]
        simp only [Bool.and_eq_true, Bool.not_eq_true', beq_eq_false_iff_ne,
          ne_eq] at h
        simp [h]
      · rw [if_neg h]
        simp only [ne_eq, not_true_eq_false, false_iff, not_and]
        intro hk hne
        exact h (by simp [hk, hne])
  · intro st b hst
    show (if st ≠ 200 then (⟨[], []⟩ : CycleResult)
        else match b with
          | none => ⟨[], []⟩
          | some doc => ⟨extractor join base doc, []⟩) = ⟨[], []⟩
    rw [if_pos hst]
  · intro s
    constructor <;> rfl

/-- Witness for C5: a 404 response yields an empty cycle with no error
output. -/
theorem tracker_failure_handling_witness :
    ((404 : Nat) ≠ 200) ∧
      tracker (fun b r => b ++ r) "http://t/" (.ok ⟨404, some (some [])⟩)
        = ⟨[], []⟩ :=
  ⟨by decide,
    (tracker_failure_handling (fun b r => b ++ r) "http://t/").2.1 404
      (some (some [])) (by decide)⟩

end TorrentPier
